import Mathlib

/-!
Verification of the staging service's file-type resolution and
import-specification parse/write pipeline.

Definitions are shallow embeddings of the Python source:
* `staging_service/app.py` (bulk_specification, _file_type_resolver,
  write_bulk_specification, inject_config_dependencies, the `files`
  query normalization);
* `staging_service/autodetect/GenerateMappings.py` (app_id_to_extensions,
  extensions_mapping).

Modules of the repository referenced by `app.py` but not present in the
source tree (import_specifications/file_parser.py,
import_specifications/file_writers.py, AutoDetectUtils.py,
autodetect/Mappings.py) are modelled from the specification where a claim
needs them; each such definition carries a doc comment saying so.
-/

namespace StagingService

/-- Error kinds of the import-specification parser.
Modelled from the spec: the `ErrorType` enum lives in
`import_specifications/file_parser.py`, which is not under src/; the spec
lists its members as FILE_NOT_FOUND, PARSE_FAIL, UNSUPPORTED_TYPE, OTHER. -/
inductive ErrorType where
  | FILE_NOT_FOUND
  | PARSE_FAIL
  | UNSUPPORTED_TYPE
  | OTHER
deriving DecidableEq, Repr, Fintype

/-- The three HTTP severities a failing bulk_specification request maps to
(web.HTTPBadRequest, web.HTTPNotFound, web.HTTPInternalServerError in
`app.py`). -/
inductive Severity where
  | badRequest
  | notFound
  | internalError
deriving DecidableEq, Repr

/-- Severity selection of `bulk_specification` (app.py lines 128-135):
`errtypes = {e.error for e in res.errors}`;
`if errtypes - {OTHER, FILE_NOT_FOUND}: HTTPBadRequest`;
`if errtypes - {OTHER}: HTTPNotFound`; else `HTTPInternalServerError`.
Python truthiness of a set is nonemptiness. -/
def bulk_spec_severity (errtypes : Finset ErrorType) : Severity :=
  if errtypes \ {ErrorType.OTHER, ErrorType.FILE_NOT_FOUND} ≠ ∅ then
    Severity.badRequest
  else if errtypes \ {ErrorType.OTHER} ≠ ∅ then
    Severity.notFound
  else
    Severity.internalError

/-- Python `str.split(",")` on the character list of the query value:
splits on every comma, keeping empty segments (and producing one empty
segment for the empty string), exactly as CPython's `str.split` with an
explicit separator does. -/
def splitCommaAux : List Char → List Char → List (List Char)
  | [], acc => [acc.reverse]
  | c :: rest, acc =>
      if c = ',' then acc.reverse :: splitCommaAux rest []
      else splitCommaAux rest (c :: acc)

def splitComma (s : String) : List (List Char) :=
  splitCommaAux s.data []

/-- Python `str.strip()` on a character list: remove leading and trailing
whitespace. -/
def pyStrip (cs : List Char) : List Char :=
  ((cs.dropWhile Char.isWhitespace).reverse.dropWhile Char.isWhitespace).reverse

/-- The `files` query normalization of `bulk_specification`
(app.py lines 111-113):
`files = files[0].split(",") if files else []`;
`files = [f.strip() for f in files if f.strip()]`.
The comprehension filters on the truthiness of the stripped segment
(nonemptiness) and keeps the stripped value. -/
def normalize_files (q : String) : List String :=
  ((splitComma q).filter (fun f => pyStrip f ≠ [])).map
    (fun f => String.mk (pyStrip f))

/-- The claim's reading of the normalization: split on commas, strip every
segment, discard segments that are empty after stripping. -/
def normalize_files_spec (q : String) : List String :=
  (((splitComma q).map (fun f => String.mk (pyStrip f))).filter
    (fun s => s ≠ ""))

/-- Modelled from the spec: the tabular import-specification format
constants CSV, TSV, EXCEL live in `autodetect/Mappings.py`, which is not
under src/; the spec names them as the FileType enum members for the
tabular formats. -/
def CSV : String := "CSV"

def TSV : String := "TSV"

def EXCEL : String := "EXCEL"

/-- The keys of `_IMPSPEC_FILE_TO_PARSER` (app.py lines 43-47): the
formats for which a tabular parser exists. -/
def impspecParserFormats : List String := [CSV, TSV, EXCEL]

/-- The per-path classification data of
`AutoDetectUtils.get_mappings([path])["fileinfo"][0]`.
Modelled from the spec: AutoDetectUtils.py is not under src/; per the
spec the classifier returns, for each path, the list of candidate
FileTypes for its extension (`file_ext_type`, first entry most general)
and the classified suffix (`suffix`, absent when no registered extension
matched). A `none`/empty suffix is falsy in Python. -/
structure FileInfo where
  file_ext_type : List String
  suffix : Option String
deriving DecidableEq, Repr

/-- A path, reduced to the final component relevant to classification. -/
structure PathName where
  name : String
deriving DecidableEq, Repr

/-- `pathlib.PurePath.suffix`: with `i = name.rfind('.')`, the result is
`name[i:]` when `0 < i < len(name) - 1`, else the empty string. -/
def PathName.suffix (p : PathName) : String :=
  let cs := p.name.data
  match cs.reverse.findIdx? (fun c => c = '.') with
  | some j =>
      let i := cs.length - 1 - j
      if 0 < i ∧ i < cs.length - 1 then String.mk (cs.drop i) else ""
  | none => ""

/-- The result of resolving one path (`FileTypeResolution` in
import_specifications/file_parser.py, not under src/). Modelled from the
spec: either a parser handle (here identified by the format it is bound
to, since `_IMPSPEC_FILE_TO_PARSER` keys parsers by format) or an
unsupported-type extension string. -/
structure FileTypeResolution where
  parser : Option String
  unsupported_type : Option String
deriving DecidableEq, Repr

/-- Python truthiness of the classified suffix field. -/
def FileInfo.suffixTruthy (fi : FileInfo) : Bool :=
  match fi.suffix with
  | some s => s ≠ ""
  | none => false

/-- `_file_type_resolver` (app.py lines 89-98):
`ftype = fi['file_ext_type'][0] if fi['file_ext_type'] else None`;
`if ftype in _IMPSPEC_FILE_TO_PARSER: return FileTypeResolution(parser=...)`;
`else: ext = fi['suffix'] if fi['suffix'] else path.suffix[1:] if path.suffix
else path.name; return FileTypeResolution(unsupported_type=ext)`. -/
def file_type_resolver (fi : FileInfo) (path : PathName) : FileTypeResolution :=
  let ftype := fi.file_ext_type.head?
  match ftype with
  | some f =>
      if f ∈ impspecParserFormats then
        ⟨some f, none⟩
      else
        ⟨none, some (resolverFallbackExt fi path)⟩
  | none => ⟨none, some (resolverFallbackExt fi path)⟩
where
  resolverFallbackExt (fi : FileInfo) (path : PathName) : String :=
    if fi.suffixTruthy then fi.suffix.getD ""
    else if path.suffix ≠ "" then String.mk (path.suffix.data.drop 1)
    else path.name

/-- The claim's description of the unsupported-extension fallback chain:
the classified suffix when one exists, else the raw filesystem suffix
without the leading dot when the path has one, else the bare filename. -/
def claimed_unsupported_ext (fi : FileInfo) (path : PathName) : String :=
  match fi.suffix with
  | some s => if s ≠ "" then s else rawOrName path
  | none => rawOrName path
where
  rawOrName (path : PathName) : String :=
    if path.suffix ≠ "" then String.mk (path.suffix.data.drop 1) else path.name

/-- One record of the FILE_EXTENSION_MAPPINGS configuration document
(`AutoDetectUtils._MAPPINGS["types"][fileext]` in
inject_config_dependencies, app.py lines 659-668): a `file_ext_type` list
of candidate FileTypes and a `mappings` list of apps; only the app `id`
field of each mapping is consumed by the table build. -/
structure ExtRecord where
  file_ext_type : List String
  mappings : List String
deriving DecidableEq, Repr

/-- The configuration document's `types` object, as an association list
of extension to record in insertion order. -/
abbrev ConfigTypes := List (String × ExtRecord)

/-- Python string comparison on character lists: lexicographic by code
point. -/
def pyLexLe : List Char → List Char → Bool
  | [], _ => true
  | _ :: _, [] => false
  | a :: as, b :: bs =>
      if a.toNat = b.toNat then pyLexLe as bs
      else decide (a.toNat < b.toNat)

/-- Python `s <= t` for strings: lexicographic by code point. -/
def pyStrLe (s t : String) : Bool := pyLexLe s.data t.data

lemma pyLexLe_total (x y : List Char) :
    pyLexLe x y = true ∨ pyLexLe y x = true := by
  induction x generalizing y with
  | nil => left; rfl
  | cons a as ih =>
      cases y with
      | nil => right; rfl
      | cons b bs =>
          by_cases hab : a.toNat = b.toNat
          · rcases ih bs with h | h
            · left; simp [pyLexLe, hab, h]
            · right; simp [pyLexLe, hab.symm, h]
          · rcases Nat.lt_or_ge a.toNat b.toNat with h | h
            · left; simp [pyLexLe, hab, h]
            · right
              have hba : b.toNat ≠ a.toNat := fun hh => hab hh.symm
              have : b.toNat < a.toNat := lt_of_le_of_ne h hba
              simp [pyLexLe, hba, this]

lemma pyLexLe_trans (x y z : List Char) (hxy : pyLexLe x y = true)
    (hyz : pyLexLe y z = true) : pyLexLe x z = true := by
  induction x generalizing y z with
  | nil => rfl
  | cons a as ih =>
      cases y with
      | nil => simp [pyLexLe] at hxy
      | cons b bs =>
          cases z with
          | nil => simp [pyLexLe] at hyz
          | cons c cs =>
              by_cases hab : a.toNat = b.toNat
              · rw [pyLexLe, if_pos hab] at hxy
                by_cases hbc : b.toNat = c.toNat
                · rw [pyLexLe, if_pos hbc] at hyz
                  rw [pyLexLe, if_pos (hab.trans hbc)]
                  exact ih bs cs hxy hyz
                · rw [pyLexLe, if_neg hbc] at hyz
                  have hlt : a.toNat < c.toNat := by
                    rw [hab]
                    simpa using hyz
                  rw [pyLexLe, if_neg (Nat.ne_of_lt hlt)]
                  simpa using hlt
              · rw [pyLexLe, if_neg hab] at hxy
                have hlt1 : a.toNat < b.toNat := by simpa using hxy
                by_cases hbc : b.toNat = c.toNat
                · have hlt : a.toNat < c.toNat := hbc ▸ hlt1
                  rw [pyLexLe, if_neg (Nat.ne_of_lt hlt)]
                  simpa using hlt
                · rw [pyLexLe, if_neg hbc] at hyz
                  have hlt2 : b.toNat < c.toNat := by simpa using hyz
                  have hlt : a.toNat < c.toNat := hlt1.trans hlt2
                  rw [pyLexLe, if_neg (Nat.ne_of_lt hlt)]
                  simpa using hlt

instance : IsTotal String (fun a b => pyStrLe a b = true) :=
  ⟨fun a b => pyLexLe_total a.data b.data⟩

instance : IsTrans String (fun a b => pyStrLe a b = true) :=
  ⟨fun a b c => pyLexLe_trans a.data b.data c.data⟩

/-- The `datatypes` defaultdict(set) of inject_config_dependencies
(app.py lines 661-668), as the list of added elements: for each record,
`filetype = val["file_ext_type"][0]` and for each `m` in
`val['mappings']`, `datatypes[m['id']].add(filetype)`. -/
def config_datatypes (types : ConfigTypes) (app : String) : List String :=
  (types.filter (fun kv => app ∈ kv.2.mappings)).map
    (fun kv => kv.2.file_ext_type.headD "")

/-- The `extensions` defaultdict(set) of inject_config_dependencies
(app.py lines 661-666), as the list of added elements:
`extensions[filetype].add(fileext)`. -/
def config_extensions (types : ConfigTypes) (ft : String) : List String :=
  (types.filter (fun kv => kv.2.file_ext_type.headD "" = ft)).map
    Prod.fst

/-- `_DATATYPE_MAPPINGS["datatype_to_filetype"][app] = sorted(datatypes[app])`
(app.py line 671): Python `sorted` of a set is the sorted duplicate-free
list of its members. -/
def datatype_to_filetype (types : ConfigTypes) (app : String) : List String :=
  List.insertionSort (fun a b => pyStrLe a b = true) (config_datatypes types app).dedup

/-- `_DATATYPE_MAPPINGS["filetype_to_extensions"][ft] = sorted(extensions[ft])`
(app.py line 672): Python `sorted` of a set is the sorted duplicate-free
list of its members. -/
def filetype_to_extensions (types : ConfigTypes) (ft : String) : List String :=
  List.insertionSort (fun a b => pyStrLe a b = true) (config_extensions types ft).dedup

/-- One entry of the extension→app weighted mapping built by
GenerateMappings.py (lines 72-82): `{"id": app_id, "app_weight": 1,
"file_type": [extension_to_file_format_mapping[extension]]}`. -/
structure MappingEntry where
  id : String
  app_weight : Nat
  file_type : List String
deriving DecidableEq, Repr

/-- `app_id_to_extensions` of GenerateMappings.py (lines 47-50):
a defaultdict(list); for each (filecat, apps) item of
`file_format_to_app_mapping` in order, for each app_id in apps,
extend app_id's list with `file_format_to_extension_mapping[filecat]`.
The per-app list is therefore the concatenation, over the items that
mention the app (with multiplicity), of that format's extensions.
`file_format_to_extension_mapping` itself lives in
`autodetect/Mappings.py`, which is not under src/, so it is kept
abstract. -/
def app_id_to_extensions (ffam : List (String × List String))
    (ffem : String → List String) (app : String) : List String :=
  ffam.flatMap (fun kv => (kv.2.filter (fun a => a = app)).flatMap
    (fun _ => ffem kv.1))

/-- Python dict-key insertion order of a defaultdict filled while
iterating: each key appears once, at its first occurrence. -/
def pyDedupKeys : List String → List String
  | [] => []
  | a :: rest => a :: (pyDedupKeys rest).filter (fun b => b ≠ a)

/-- `extensions_mapping` of GenerateMappings.py (lines 67-82), read off at
one extension: a defaultdict(list); for each app_id in
`app_id_to_extensions` (key insertion order), for each extension in its
list, append `{id: app_id, app_weight: 1, file_type:
[extension_to_file_format_mapping[extension]]}` to that extension's
list. `extension_to_file_format_mapping` lives in `autodetect/Mappings.py`,
not under src/, so it is kept abstract. -/
def extensions_mapping (ffam : List (String × List String))
    (ffem : String → List String) (etfm : String → String)
    (ext : String) : List MappingEntry :=
  (pyDedupKeys (ffam.flatMap Prod.snd)).flatMap (fun app =>
    ((app_id_to_extensions ffam ffem app).filter (fun e => e = ext)).map
      (fun e => ⟨app, 1, [etfm e]⟩))

/-- A cell value of an import specification: Python str or number. -/
inductive CellValue where
  | str (s : String)
  | num (n : Int)
deriving DecidableEq, Repr

/-- One row of an import specification: a mapping from parameter id to
value, as an association list in insertion order. -/
abbrev Row := List (String × CellValue)

/-- One datatype's template specification for write_bulk_specification
(app.py docstring, lines 146-161): `order_and_display` is the ordered
list of (parameter id, display name) pairs, `data` the list of rows. -/
structure TemplateSpec where
  order_and_display : List (String × String)
  data : List Row
deriving DecidableEq, Repr

/-- The writers' precondition on one row (app.py docstring line 158:
"Each dict must have exactly the same keys as the order_and_display
structure"): the row's key set equals the paramId set. -/
def rowMatchesParams (oad : List (String × String)) (row : Row) : Bool :=
  decide ((row.map Prod.fst).toFinset = (oad.map Prod.fst).toFinset)

/-- A whole TemplateSpec satisfies the writers' precondition. -/
def specValid (ts : TemplateSpec) : Bool :=
  ts.data.all (rowMatchesParams ts.order_and_display)

/-- The logical content of one written template file (or of one sheet of
the Excel workbook). Modelled from the spec:
import_specifications/file_writers.py is not under src/; per the spec a
written template records the datatype, the column order (paramIds, the
header row a parser uses to map columns back to paramIds), the display
names, and the data rows in column order. -/
structure WrittenFile where
  datatype : String
  columns : List String
  display : List String
  rows : List (List CellValue)
deriving DecidableEq, Repr

/-- Render one datatype's TemplateSpec: columns follow order_and_display,
header display cells use the display names, each data row is laid out in
column order. Modelled from the spec (file_writers.py is not under
src/). -/
def writeOne (dt : String) (ts : TemplateSpec) : WrittenFile :=
  { datatype := dt
    columns := ts.order_and_display.map Prod.fst
    display := ts.order_and_display.map Prod.snd
    rows := ts.data.map (fun row =>
      ts.order_and_display.map
        (fun pd => (row.lookup pd.1).getD (CellValue.str ""))) }

/-- The three template output formats (`_IMPSPEC_FILE_TO_WRITER` keys,
app.py lines 49-53). -/
inductive OutFormat where
  | csv
  | tsv
  | excel
deriving DecidableEq, Repr

def formatExt : OutFormat → String
  | OutFormat.csv => "csv"
  | OutFormat.tsv => "tsv"
  | OutFormat.excel => "xlsx"

/-- Output file name for one datatype: CSV/TSV produce one file per
datatype named after it; EXCEL produces one workbook holding one sheet
per datatype. Modelled from the spec (file_writers.py is not under
src/). -/
def outFileName (fmt : OutFormat) (dt : String) : String :=
  match fmt with
  | OutFormat.excel => "import_specification.xlsx"
  | _ => dt ++ "." ++ formatExt fmt

/-- The writer dispatched by write_bulk_specification (app.py lines
184-192): validate every datatype's TemplateSpec first and fail the whole
call with a human-readable ImportSpecWriteException message — creating no
file — on any violation; otherwise create one written file (or sheet) per
datatype. Modelled from the spec: file_writers.py is not under src/; the
spec requires the precondition check to fail fast before any file is
created. -/
def write_bulk (fmt : OutFormat) (specs : List (String × TemplateSpec)) :
    Except String (List (String × WrittenFile)) :=
  if specs.all (fun s => specValid s.2) then
    Except.ok (specs.map (fun s => (outFileName fmt s.1, writeOne s.1 s.2)))
  else
    Except.error "Invalid import specification data"

/-- Parse one written template back: the header row defines the
column→paramId mapping and every data row becomes a record in column
order. Modelled from the spec:
import_specifications/individual_parsers.py is not under src/. -/
def parseWritten (f : WrittenFile) : String × List Row :=
  (f.datatype, f.rows.map (fun r => f.columns.zip r))

/-- Parse every file of a write_bulk output (for EXCEL, every sheet of
the workbook). Modelled from the spec (individual_parsers.py is not
under src/). -/
def parse_written_output (files : List (String × WrittenFile)) :
    List (String × List Row) :=
  files.map (fun kv => parseWritten kv.2)

/-- Provenance of a parsed datatype block: `(file, tab)`
(`SpecificationSource` of import_specifications/file_parser.py, not
under src/; modelled from the spec). -/
structure SpecSource where
  file : String
  tab : Option String
deriving DecidableEq, Repr

/-- One parse error (`Error` of import_specifications/file_parser.py, not
under src/; modelled from the spec): a kind, a message and optional
provenance. -/
structure ParseError where
  error : ErrorType
  message : String
  source : Option SpecSource
deriving DecidableEq, Repr

/-- One parsed datatype block: rows plus provenance
(`ParseResult` of file_parser.py, not under src/; modelled from the
spec). -/
structure ParsedBlock where
  rows : List Row
  source : SpecSource
deriving DecidableEq, Repr

/-- Outcome of invoking one tabular parser on one file: either datatype
blocks or errors. Modelled from the spec (individual_parsers.py is not
under src/), kept abstract in the aggregation theorems. -/
inductive FileParseOutcome where
  | success (blocks : List (String × ParsedBlock))
  | failure (errors : List ParseError)
deriving DecidableEq, Repr

/-- The aggregate result (`ParseResults` of file_parser.py, not under
src/; modelled from the spec): either a mapping of datatype to parsed
block, or the set of errors — exactly one of the two. -/
structure ParseResults where
  results : Option (List (String × ParsedBlock))
  errors : Option (List ParseError)
deriving DecidableEq, Repr

/-- Per-path processing of parse_import_specifications. Modelled from the
spec: resolve the path; if unsupported, record an UNSUPPORTED_TYPE error
for that file and continue; otherwise invoke the resolved parser. -/
def pathOutcome (resolver : PathName → FileTypeResolution)
    (invoke : String → PathName → FileParseOutcome)
    (p : PathName) : FileParseOutcome :=
  match (resolver p).parser with
  | some f => invoke f p
  | none => FileParseOutcome.failure
      [⟨ErrorType.UNSUPPORTED_TYPE,
        p.name ++ " is not a supported file type for import specifications",
        some ⟨p.name, none⟩⟩]

/-- The errors one path contributes. -/
def pathErrors (resolver : PathName → FileTypeResolution)
    (invoke : String → PathName → FileParseOutcome)
    (p : PathName) : List ParseError :=
  match pathOutcome resolver invoke p with
  | FileParseOutcome.failure errs => errs
  | FileParseOutcome.success _ => []

/-- The datatype blocks one path contributes. -/
def pathBlocks (resolver : PathName → FileTypeResolution)
    (invoke : String → PathName → FileParseOutcome)
    (p : PathName) : List (String × ParsedBlock) :=
  match pathOutcome resolver invoke p with
  | FileParseOutcome.success blocks => blocks
  | FileParseOutcome.failure _ => []

/-- Datatype-collision errors: a PARSE_FAIL for every datatype declared
by more than one block. Modelled from the spec: "Datatype name collisions
across different input files are a PARSE_FAIL error". -/
def duplicateErrors (blocks : List (String × ParsedBlock)) : List ParseError :=
  (pyDedupKeys ((blocks.map Prod.fst).filter
    (fun d => 1 < (blocks.map Prod.fst).count d))).map
    (fun d => ⟨ErrorType.PARSE_FAIL,
      "Data type " ++ d ++ " appears in two importer specification sources",
      none⟩)

/-- `parse_import_specifications` of
import_specifications/file_parser.py. Modelled from the spec: the module
is not under src/; per the spec, every path is resolved and parsed, all
errors from every input (plus datatype-collision errors) are collected,
and the aggregate is a failure carrying the full error set whenever any
error occurred, else the mapping of every discovered datatype to its rows
and provenance. -/
def parse_import_specifications (paths : List PathName)
    (resolver : PathName → FileTypeResolution)
    (invoke : String → PathName → FileParseOutcome) : ParseResults :=
  if paths.flatMap (pathErrors resolver invoke) ++
      duplicateErrors (paths.flatMap (pathBlocks resolver invoke)) = [] then
    ⟨some (paths.flatMap (pathBlocks resolver invoke)), none⟩
  else
    ⟨none, some (paths.flatMap (pathErrors resolver invoke) ++
      duplicateErrors (paths.flatMap (pathBlocks resolver invoke)))⟩

end StagingService

namespace StagingService

lemma mk_pyStrip_ne_nil (f : List Char) :
    (String.mk (pyStrip f) ≠ "") ↔ pyStrip f ≠ [] := by
  constructor
  · intro h hf
    exact h (by simp [hf])
  · intro h hmk
    apply h
    have : (String.mk (pyStrip f)).data = ("" : String).data := by rw [hmk]
    simpa using this

lemma normalize_files_eq_spec (q : String) :
    normalize_files q = normalize_files_spec q := by
  unfold normalize_files normalize_files_spec
  induction splitComma q with
  | nil => rfl
  | cons f rest ih =>
      by_cases h : pyStrip f = []
      · simp only [List.filter_cons, List.map_cons]
        rw [if_neg (by simpa using h), if_neg (by simp [h])]
        exact ih
      · simp only [List.filter_cons, List.map_cons]
        rw [if_pos (by simpa using h), if_pos (by simpa using (mk_pyStrip_ne_nil f).mpr h)]
        simpa using ih

/-- Claim C1: for every non-empty set of parse-error kinds produced by the
bulk specification endpoint, the HTTP severity is: bad-request if the set
contains any kind other than OTHER or FILE_NOT_FOUND; otherwise not-found
if it contains FILE_NOT_FOUND; otherwise (only OTHER remains) internal
error. -/
theorem c1_bulk_spec_severity_selection (errtypes : Finset ErrorType)
    (hne : errtypes.Nonempty) :
    ((∃ e ∈ errtypes, e ≠ ErrorType.OTHER ∧ e ≠ ErrorType.FILE_NOT_FOUND) →
        bulk_spec_severity errtypes = Severity.badRequest) ∧
    ((∀ e ∈ errtypes, e = ErrorType.OTHER ∨ e = ErrorType.FILE_NOT_FOUND) →
        ErrorType.FILE_NOT_FOUND ∈ errtypes →
        bulk_spec_severity errtypes = Severity.notFound) ∧
    ((∀ e ∈ errtypes, e = ErrorType.OTHER) →
        bulk_spec_severity errtypes = Severity.internalError) := by
  revert hne
  revert errtypes
  decide

/-- Witness for C1: the singleton sets exercise all three severities. -/
theorem c1_witness :
    bulk_spec_severity {ErrorType.PARSE_FAIL} = Severity.badRequest ∧
    bulk_spec_severity {ErrorType.FILE_NOT_FOUND} = Severity.notFound ∧
    bulk_spec_severity {ErrorType.OTHER} = Severity.internalError := by
  refine ⟨?_, ?_, ?_⟩
  · exact (c1_bulk_spec_severity_selection {ErrorType.PARSE_FAIL}
      (by decide)).1 (by decide)
  · exact (c1_bulk_spec_severity_selection {ErrorType.FILE_NOT_FOUND}
      (by decide)).2.1 (by decide) (by decide)
  · exact (c1_bulk_spec_severity_selection {ErrorType.OTHER}
      (by decide)).2.2 (by decide)

/-- Claim C2: the resolver returns a parser handle bound to the path's
format exactly when the first entry of the classified file-extension-type
list is one of CSV, TSV, EXCEL; otherwise it returns an unsupported-type
result whose extension string is the classified suffix when one exists,
else the raw filesystem suffix without the leading dot when the path has
a suffix, else the bare filename. -/
theorem c2_file_type_resolution (fi : FileInfo) (path : PathName) :
    (∀ f, fi.file_ext_type.head? = some f → f ∈ impspecParserFormats →
        file_type_resolver fi path = ⟨some f, none⟩) ∧
    ((∀ f, fi.file_ext_type.head? = some f → f ∉ impspecParserFormats) →
        file_type_resolver fi path =
          ⟨none, some (claimed_unsupported_ext fi path)⟩) := by
  have hext : file_type_resolver.resolverFallbackExt fi path =
      claimed_unsupported_ext fi path := by
    unfold file_type_resolver.resolverFallbackExt claimed_unsupported_ext
      claimed_unsupported_ext.rawOrName FileInfo.suffixTruthy
    cases h : fi.suffix with
    | none => simp
    | some s =>
        by_cases hs : s = ""
        · simp [hs]
        · simp [hs]
  constructor
  · intro f hf hmem
    unfold file_type_resolver
    rw [hf]
    simp [hmem]
  · intro hnot
    unfold file_type_resolver
    cases h : fi.file_ext_type.head? with
    | none => simp [hext]
    | some f =>
        have := hnot f h
        simp [this, hext]

/-- Witness for C2: a path classified as CSV resolves to the CSV parser;
a path with no classification resolves to its raw suffix. -/
theorem c2_witness :
    file_type_resolver ⟨[CSV], some "csv"⟩ ⟨"a.csv"⟩ = ⟨some CSV, none⟩ ∧
    file_type_resolver ⟨[], none⟩ ⟨"a.bin"⟩ = ⟨none, some "bin"⟩ := by
  constructor
  · exact (c2_file_type_resolution ⟨[CSV], some "csv"⟩ ⟨"a.csv"⟩).1 CSV
      (by decide) (by decide)
  · have h := (c2_file_type_resolution ⟨[], none⟩ ⟨"a.bin"⟩).2
      (by intro f hf _; simp at hf)
    rw [h]
    decide

/-- Claim C9: for every path, the FileTypeResolution returned by the
resolver has exactly one of its two variants populated: either a parser
handle or an unsupported-type extension string, never both and never
neither. -/
theorem c9_resolution_exactly_one_variant (fi : FileInfo) (path : PathName) :
    ((file_type_resolver fi path).parser.isSome ∧
        (file_type_resolver fi path).unsupported_type = none) ∨
    ((file_type_resolver fi path).parser = none ∧
        (file_type_resolver fi path).unsupported_type.isSome) := by
  unfold file_type_resolver
  cases fi.file_ext_type.head? with
  | none => right; simp
  | some f =>
      by_cases h : f ∈ impspecParserFormats
      · left; simp [h]
      · right; simp [h]

/-- Claim C4: for every configuration document, extension e whose record
declares canonical FileType t (the first entry of its file-extension-type
list) and whose mappings list contains app a: datatype_to_filetype maps a
to a list containing t, and filetype_to_extensions maps t to a list
containing e. -/
theorem c4_table_membership (types : ConfigTypes) (e : String)
    (rec : ExtRecord) (t a : String)
    (hrec : (e, rec) ∈ types)
    (ht : rec.file_ext_type.head? = some t)
    (ha : a ∈ rec.mappings) :
    t ∈ datatype_to_filetype types a ∧ e ∈ filetype_to_extensions types t := by
  have hhead : rec.file_ext_type.headD "" = t := by
    cases hft : rec.file_ext_type with
    | nil => rw [hft] at ht; simp at ht
    | cons x xs => rw [hft] at ht; simp at ht; simp [hft, ht]
  constructor
  · rw [datatype_to_filetype, (List.perm_insertionSort _ _).mem_iff,
      List.mem_dedup, config_datatypes]
    exact List.mem_map.mpr ⟨(e, rec), List.mem_filter.mpr ⟨hrec, by simpa using ha⟩, hhead⟩
  · rw [filetype_to_extensions, (List.perm_insertionSort _ _).mem_iff,
      List.mem_dedup, config_extensions]
    exact List.mem_map.mpr ⟨(e, rec), List.mem_filter.mpr ⟨hrec, by simpa using hhead⟩, rfl⟩

/-- Witness for C4: a one-record configuration registering extension
"gff3" under FileType "GFF" for app "gff_genome". -/
theorem c4_witness :
    "GFF" ∈ datatype_to_filetype [("gff3", ⟨["GFF"], ["gff_genome"]⟩)] "gff_genome" ∧
    "gff3" ∈ filetype_to_extensions [("gff3", ⟨["GFF"], ["gff_genome"]⟩)] "GFF" :=
  c4_table_membership [("gff3", ⟨["GFF"], ["gff_genome"]⟩)] "gff3"
    ⟨["GFF"], ["gff_genome"]⟩ "GFF" "gff_genome"
    (by decide) (by decide) (by decide)

/-- Claim C8: the two derived query tables are deterministic and
order-stable: datatype_to_filetype maps every app id to its accepted
FileTypes as a sorted duplicate-free list, filetype_to_extensions maps
every FileType to its extensions as a sorted duplicate-free list, and
each table's content is exactly determined by the configuration (so the
same configuration always yields identical responses). -/
theorem c8_tables_sorted_and_deterministic (types : ConfigTypes)
    (app ft t e : String) :
    (datatype_to_filetype types app).Sorted (fun a b => pyStrLe a b = true) ∧
    (datatype_to_filetype types app).Nodup ∧
    (filetype_to_extensions types ft).Sorted (fun a b => pyStrLe a b = true) ∧
    (filetype_to_extensions types ft).Nodup ∧
    (t ∈ datatype_to_filetype types app ↔
      ∃ x ∈ types, app ∈ x.2.mappings ∧ x.2.file_ext_type.headD "" = t) ∧
    (e ∈ filetype_to_extensions types ft ↔
      ∃ rec, (e, rec) ∈ types ∧ rec.file_ext_type.headD "" = ft) := by
  refine ⟨List.sorted_insertionSort _ _,
    ((List.perm_insertionSort _ _).nodup_iff).mpr (List.nodup_dedup _),
    List.sorted_insertionSort _ _,
    ((List.perm_insertionSort _ _).nodup_iff).mpr (List.nodup_dedup _), ?_, ?_⟩
  · rw [datatype_to_filetype, (List.perm_insertionSort _ _).mem_iff,
      List.mem_dedup, config_datatypes, List.mem_map]
    constructor
    · rintro ⟨x, hx, hhead⟩
      have hx' := List.mem_filter.mp hx
      exact ⟨x, hx'.1, by simpa using hx'.2, hhead⟩
    · rintro ⟨x, hx, ha, hhead⟩
      exact ⟨x, List.mem_filter.mpr ⟨hx, by simpa using ha⟩, hhead⟩
  · rw [filetype_to_extensions, (List.perm_insertionSort _ _).mem_iff,
      List.mem_dedup, config_extensions, List.mem_map]
    constructor
    · rintro ⟨x, hx, hfst⟩
      have hx' := List.mem_filter.mp hx
      refine ⟨x.2, ?_, by simpa using hx'.2⟩
      have : (e, x.2) = x := by
        rw [← hfst]
      rw [this]
      exact hx'.1
    · rintro ⟨rec, hrec, hhead⟩
      exact ⟨(e, rec), List.mem_filter.mpr ⟨hrec, by simpa using hhead⟩, rfl⟩

/-- Witness for C8: the tables of a concrete two-record configuration. -/
theorem c8_witness :
    (datatype_to_filetype
      [("gff3", ⟨["GFF"], ["gff_genome"]⟩), ("fa", ⟨["FASTA"], ["gff_genome"]⟩)]
      "gff_genome").Sorted (fun a b => pyStrLe a b = true) ∧
    (datatype_to_filetype
      [("gff3", ⟨["GFF"], ["gff_genome"]⟩), ("fa", ⟨["FASTA"], ["gff_genome"]⟩)]
      "gff_genome").Nodup ∧
    (filetype_to_extensions
      [("gff3", ⟨["GFF"], ["gff_genome"]⟩), ("fa", ⟨["FASTA"], ["gff_genome"]⟩)]
      "GFF").Sorted (fun a b => pyStrLe a b = true) ∧
    (filetype_to_extensions
      [("gff3", ⟨["GFF"], ["gff_genome"]⟩), ("fa", ⟨["FASTA"], ["gff_genome"]⟩)]
      "GFF").Nodup ∧
    ("GFF" ∈ datatype_to_filetype
      [("gff3", ⟨["GFF"], ["gff_genome"]⟩), ("fa", ⟨["FASTA"], ["gff_genome"]⟩)]
      "gff_genome" ↔
      ∃ x ∈ [("gff3", (⟨["GFF"], ["gff_genome"]⟩ : ExtRecord)),
             ("fa", ⟨["FASTA"], ["gff_genome"]⟩)],
        "gff_genome" ∈ x.2.mappings ∧ x.2.file_ext_type.headD "" = "GFF") ∧
    ("gff3" ∈ filetype_to_extensions
      [("gff3", ⟨["GFF"], ["gff_genome"]⟩), ("fa", ⟨["FASTA"], ["gff_genome"]⟩)]
      "GFF" ↔
      ∃ rec, ("gff3", rec) ∈ [("gff3", (⟨["GFF"], ["gff_genome"]⟩ : ExtRecord)),
             ("fa", ⟨["FASTA"], ["gff_genome"]⟩)] ∧
        rec.file_ext_type.headD "" = "GFF") :=
  c8_tables_sorted_and_deterministic
    [("gff3", ⟨["GFF"], ["gff_genome"]⟩), ("fa", ⟨["FASTA"], ["gff_genome"]⟩)]
    "gff_genome" "GFF" "GFF" "gff3"

/-- Witness for C9: a concrete resolution has exactly one variant set. -/
theorem c9_witness :
    ((file_type_resolver ⟨[TSV], some "tsv"⟩ ⟨"b.tsv"⟩).parser.isSome ∧
        (file_type_resolver ⟨[TSV], some "tsv"⟩ ⟨"b.tsv"⟩).unsupported_type = none) ∨
    ((file_type_resolver ⟨[TSV], some "tsv"⟩ ⟨"b.tsv"⟩).parser = none ∧
        (file_type_resolver ⟨[TSV], some "tsv"⟩ ⟨"b.tsv"⟩).unsupported_type.isSome) :=
  c9_resolution_exactly_one_variant ⟨[TSV], some "tsv"⟩ ⟨"b.tsv"⟩

lemma mem_pyDedupKeys (x : String) (l : List String) :
    x ∈ pyDedupKeys l ↔ x ∈ l := by
  induction l with
  | nil => simp [pyDedupKeys]
  | cons a rest ih =>
      simp only [pyDedupKeys, List.mem_cons, List.mem_filter]
      by_cases hx : x = a
      · simp [hx]
      · simp [hx, ih]

/-- Claim C6: the derived extension-to-app weighted mapping contains, for
every app id a and every extension e that a accepts via its FileType, an
entry under key e carrying a, weight 1, and the extension's FileType;
entries for an extension accepted by multiple apps are all preserved. In
particular an extension registered under FileType GFF accepted by
gff_genome and gff_metagenome yields both app ids with weight 1. -/
theorem c6_extensions_mapping (ffam : List (String × List String))
    (ffem : String → List String) (etfm : String → String)
    (t : String) (apps : List String) (a e : String)
    (hft : (t, apps) ∈ ffam) (ha : a ∈ apps) (he : e ∈ ffem t) :
    (⟨a, 1, [etfm e]⟩ : MappingEntry) ∈ extensions_mapping ffam ffem etfm e ∧
    extensions_mapping [("GFF", ["gff_genome", "gff_metagenome"])]
      (fun ty => if ty = "GFF" then ["gff3"] else [])
      (fun _ => "GFF") "gff3" =
      [⟨"gff_genome", 1, ["GFF"]⟩, ⟨"gff_metagenome", 1, ["GFF"]⟩] := by
  constructor
  · rw [extensions_mapping, List.mem_flatMap]
    refine ⟨a, ?_, ?_⟩
    · rw [mem_pyDedupKeys, List.mem_flatMap]
      exact ⟨(t, apps), hft, ha⟩
    · rw [List.mem_map]
      refine ⟨e, ?_, rfl⟩
      rw [List.mem_filter]
      refine ⟨?_, by simp⟩
      rw [app_id_to_extensions, List.mem_flatMap]
      refine ⟨(t, apps), hft, ?_⟩
      rw [List.mem_flatMap]
      exact ⟨a, List.mem_filter.mpr ⟨ha, by simp⟩, he⟩
  · decide

/-- Witness for C6: the GFF configuration from the claim yields the
gff_genome entry with weight 1. -/
theorem c6_witness :
    (⟨"gff_genome", 1, ["GFF"]⟩ : MappingEntry) ∈
      extensions_mapping [("GFF", ["gff_genome", "gff_metagenome"])]
        (fun ty => if ty = "GFF" then ["gff3"] else [])
        (fun _ => "GFF") "gff3" :=
  (c6_extensions_mapping [("GFF", ["gff_genome", "gff_metagenome"])]
    (fun ty => if ty = "GFF" then ["gff3"] else [])
    (fun _ => "GFF") "GFF" ["gff_genome", "gff_metagenome"]
    "gff_genome" "gff3" (by decide) (by decide) (by decide)).1

lemma lookup_map_pairs (g : String → CellValue)
    (oad : List (String × String)) (k : String) :
    (oad.map (fun pd => (pd.1, g pd.1))).lookup k =
      if k ∈ oad.map Prod.fst then some (g k) else none := by
  induction oad with
  | nil => simp
  | cons pd rest ih =>
      by_cases hk : k = pd.1
      · simp [List.lookup, hk]
      · have hbeq : (k == pd.1) = false := by simp [hk]
        simp only [List.lookup, hbeq, ih, List.map_cons]
        by_cases hm : k ∈ List.map Prod.fst rest <;> simp [hm, hk]

lemma lookup_eq_none_iff_not_mem (row : Row) (k : String) :
    row.lookup k = none ↔ k ∉ row.map Prod.fst := by
  induction row with
  | nil => simp
  | cons kv rest ih =>
      by_cases hk : k = kv.1
      · simp [List.lookup, hk]
      · have hbeq : (k == kv.1) = false := by simp [hk]
        simp [List.lookup, hbeq, hk, ih]

lemma row_round_trip (oad : List (String × String)) (row : Row)
    (hrow : rowMatchesParams oad row = true) (k : String) :
    ((oad.map Prod.fst).zip
      (oad.map (fun pd => (row.lookup pd.1).getD (CellValue.str "")))).lookup k
      = row.lookup k := by
  rw [List.zip_map',
    lookup_map_pairs (fun x => (List.lookup x row).getD (CellValue.str ""))]
  have hsets : (row.map Prod.fst).toFinset = (oad.map Prod.fst).toFinset := by
    simpa [rowMatchesParams] using hrow
  by_cases hk : k ∈ oad.map Prod.fst
  · rw [if_pos hk]
    have hk' : k ∈ row.map Prod.fst := by
      rw [← List.mem_toFinset, hsets, List.mem_toFinset]
      exact hk
    cases hv : row.lookup k with
    | none => exact absurd ((lookup_eq_none_iff_not_mem row k).mp hv) (by simp [hk'])
    | some v => simp
  · rw [if_neg hk]
    symm
    rw [lookup_eq_none_iff_not_mem]
    intro hk'
    apply hk
    rw [← List.mem_toFinset, ← hsets, List.mem_toFinset]
    exact hk'

/-- Claim C5: for every valid TemplateSpec collection and every format F
in {CSV, TSV, EXCEL}, writing with the Template Writer in format F and
then parsing the result with the Spec Parser Dispatch yields row data
equal (as a mapping from parameter id to value) to the original data. -/
theorem c5_write_parse_round_trip (fmt : OutFormat)
    (specs : List (String × TemplateSpec))
    (hvalid : specs.all (fun s => specValid s.2) = true) :
    ∃ out, write_bulk fmt specs = Except.ok out ∧
      List.Forall₂ (fun (s : String × TemplateSpec) (pr : String × List Row) =>
        pr.1 = s.1 ∧ List.Forall₂
          (fun orig parsed => ∀ k, List.lookup k parsed = List.lookup k orig)
          s.2.data pr.2)
        specs (parse_written_output out) := by
  refine ⟨specs.map (fun s => (outFileName fmt s.1, writeOne s.1 s.2)), ?_, ?_⟩
  · rw [write_bulk, if_pos hvalid]
  · rw [parse_written_output, List.map_map]
    rw [List.forall₂_map_right_iff, List.forall₂_same]
    intro s hs
    have hsvalid : specValid s.2 = true := by
      have := List.all_eq_true.mp hvalid s hs
      simpa using this
    refine ⟨rfl, ?_⟩
    show List.Forall₂ _ s.2.data (parseWritten (writeOne s.1 s.2)).2
    rw [parseWritten, writeOne]
    simp only
    rw [List.map_map, List.forall₂_map_right_iff, List.forall₂_same]
    intro row hrowmem k
    have hrow : rowMatchesParams s.2.order_and_display row = true := by
      have := List.all_eq_true.mp hsvalid row hrowmem
      simpa using this
    exact row_round_trip s.2.order_and_display row hrow k

/-- Witness for C5: a one-datatype, one-row specification round trips
through the CSV writer and parser. -/
theorem c5_witness :
    ∃ out, write_bulk OutFormat.csv
        [("genome", ⟨[("id", "ID"), ("name", "Name")],
          [[("id", CellValue.str "1"), ("name", CellValue.str "x")]]⟩)] =
        Except.ok out ∧
      List.Forall₂ (fun (s : String × TemplateSpec) (pr : String × List Row) =>
        pr.1 = s.1 ∧ List.Forall₂
          (fun orig parsed => ∀ k, List.lookup k parsed = List.lookup k orig)
          s.2.data pr.2)
        [("genome", ⟨[("id", "ID"), ("name", "Name")],
          [[("id", CellValue.str "1"), ("name", CellValue.str "x")]]⟩)]
        (parse_written_output out) :=
  c5_write_parse_round_trip OutFormat.csv
    [("genome", ⟨[("id", "ID"), ("name", "Name")],
      [[("id", CellValue.str "1"), ("name", CellValue.str "x")]]⟩)]
    (by decide)

/-- Claim C7: a write-bulk-specification request in which some datatype's
TemplateSpec contains a row whose key set differs from the paramIds of
order_and_display fails as a whole with a human-readable error message
and creates no output file, not even for datatypes whose specs were
valid. -/
theorem c7_invalid_write_fails_atomically (fmt : OutFormat)
    (specs : List (String × TemplateSpec))
    (hbad : ∃ s ∈ specs, ∃ row ∈ s.2.data,
      rowMatchesParams s.2.order_and_display row = false) :
    ∃ msg, write_bulk fmt specs = Except.error msg ∧ msg ≠ "" := by
  obtain ⟨s, hs, row, hrow, hfalse⟩ := hbad
  refine ⟨"Invalid import specification data", ?_, by decide⟩
  rw [write_bulk, if_neg]
  intro hall
  have := List.all_eq_true.mp hall s hs
  have hv : specValid s.2 = true := by simpa using this
  have := List.all_eq_true.mp hv row hrow
  rw [hfalse] at this
  simp at this

/-- Witness for C7: one valid and one invalid datatype; the write fails
with no output. -/
theorem c7_witness :
    ∃ msg, write_bulk OutFormat.tsv
        [("good", ⟨[("id", "ID")], [[("id", CellValue.str "1")]]⟩),
         ("bad", ⟨[("id", "ID")], [[("wrong", CellValue.str "2")]]⟩)] =
        Except.error msg ∧ msg ≠ "" :=
  c7_invalid_write_fails_atomically OutFormat.tsv
    [("good", ⟨[("id", "ID")], [[("id", CellValue.str "1")]]⟩),
     ("bad", ⟨[("id", "ID")], [[("wrong", CellValue.str "2")]]⟩)]
    ⟨("bad", ⟨[("id", "ID")], [[("wrong", CellValue.str "2")]]⟩),
      by decide, [("wrong", CellValue.str "2")], by decide, by decide⟩

/-- Claim C3: parsing a bulk specification is all-or-nothing: if any input
produces any error, the overall result is a failure carrying the full set
of errors from every input (never truncated), and no parsed records are
surfaced even for files that parsed cleanly; if zero errors occurred, the
result maps each discovered datatype to its parsed rows and (file, tab)
provenance. -/
theorem c3_all_or_nothing (paths : List PathName)
    (resolver : PathName → FileTypeResolution)
    (invoke : String → PathName → FileParseOutcome) :
    ((∃ p ∈ paths, pathErrors resolver invoke p ≠ []) →
        (parse_import_specifications paths resolver invoke).results = none ∧
        ∃ es, (parse_import_specifications paths resolver invoke).errors = some es ∧
          ∀ q ∈ paths, ∀ err ∈ pathErrors resolver invoke q, err ∈ es) ∧
    ((paths.flatMap (pathErrors resolver invoke) = [] ∧
        duplicateErrors (paths.flatMap (pathBlocks resolver invoke)) = []) →
        (parse_import_specifications paths resolver invoke).errors = none ∧
        (parse_import_specifications paths resolver invoke).results =
          some (paths.flatMap (pathBlocks resolver invoke)) ∧
        ∀ q ∈ paths, ∀ b ∈ pathBlocks resolver invoke q,
          b ∈ paths.flatMap (pathBlocks resolver invoke)) := by
  constructor
  · rintro ⟨p, hp, herr⟩
    have hne : paths.flatMap (pathErrors resolver invoke) ++
        duplicateErrors (paths.flatMap (pathBlocks resolver invoke)) ≠ [] := by
      intro h
      rcases List.append_eq_nil.mp h with ⟨h1, _⟩
      rcases List.exists_mem_of_ne_nil _ herr with ⟨err, hmem⟩
      have : err ∈ paths.flatMap (pathErrors resolver invoke) :=
        List.mem_flatMap.mpr ⟨p, hp, hmem⟩
      rw [h1] at this
      simp at this
    rw [parse_import_specifications, if_neg hne]
    refine ⟨rfl, _, rfl, ?_⟩
    intro q hq err hmem
    exact List.mem_append_left _ (List.mem_flatMap.mpr ⟨q, hq, hmem⟩)
  · rintro ⟨h1, h2⟩
    rw [parse_import_specifications, if_pos (by rw [h1, h2]; rfl)]
    exact ⟨rfl, rfl, fun q hq b hb => List.mem_flatMap.mpr ⟨q, hq, hb⟩⟩

/-- Witness for C3: an unsupported file makes the whole request fail with
its error carried, even though the resolver would parse nothing else. -/
theorem c3_witness :
    (parse_import_specifications [⟨"a.bin"⟩]
        (fun _ => ⟨none, some "bin"⟩)
        (fun _ _ => FileParseOutcome.success [])).results = none :=
  ((c3_all_or_nothing [⟨"a.bin"⟩]
      (fun _ => ⟨none, some "bin"⟩)
      (fun _ _ => FileParseOutcome.success [])).1
    ⟨⟨"a.bin"⟩, by decide, by decide⟩).1

/-- Claim C10: the bulk specification endpoint normalizes the
comma-separated `files` query value by splitting on commas, stripping each
segment of surrounding whitespace and discarding segments empty after
stripping; in particular "a.csv, b.tsv," and "a.csv,b.tsv" resolve to the
same list of paths. -/
theorem c10_files_query_normalization :
    (∀ q : String, normalize_files q = normalize_files_spec q) ∧
    normalize_files "a.csv, b.tsv," = normalize_files "a.csv,b.tsv" ∧
    normalize_files "a.csv,b.tsv" = ["a.csv", "b.tsv"] := by
  refine ⟨normalize_files_eq_spec, ?_, ?_⟩ <;> decide

end StagingService
